import Mathlib

/-
Verification of the tag-aware article persistence workflow and the
asynchronous embedding / blog-writing pipeline of the blog backend
(Flask + SQLAlchemy + Celery application under server/app).

The relational store is modelled as explicit lists of rows with the
constraints declared on the models in app/models/article.py:
  * articles.slug UNIQUE, title/content/author_id NOT NULL,
    author_id FOREIGN KEY users.id;
  * tags.name UNIQUE (nullable);
  * article_tags.article_id / tag_id NOT NULL, FOREIGN KEYs to
    articles.id / tags.id with no ON DELETE action, and
    UNIQUE (article_id, tag_id).
Timestamp columns (created_at / updated_at, server-assigned) are omitted:
no verified property reads them.  Embedding vectors are opaque numeric
lists (no claim computes with float arithmetic), so they are modelled as
`List Int`.

SQLAlchemy session behaviour is made explicit: objects added to the
session are pending until a flush assigns their autoincrement ids and
runs the INSERTs; a commit flushes everything and either succeeds or
raises, rolling the transaction back to the previously committed state.
A Python attribute value captured before the owning object is flushed
(such as `article.id` on a transient Article) is `none`.
-/

/-- Embedding vectors are treated as opaque fixed-length numeric lists. -/
abbrev Vec := List Int

/-- A committed row of the `articles` table (app/models/article.py, Article). -/
structure ArticleRow where
  id : Nat
  image : Option String := none
  slug : String
  title : String
  content : String
  author_id : Option Nat
  is_draft : Bool := true
  embedding : Option Vec := none
deriving Repr, DecidableEq

/-- A row of the `tags` table (app/models/article.py, Tag); `name` is nullable. -/
structure TagRow where
  id : Nat
  name : Option String
deriving Repr, DecidableEq

/-- A row of the `article_tags` junction table (app/models/article.py, ArticleTag). -/
structure ArticleTagRow where
  id : Nat
  article_id : Option Nat
  tag_id : Option Nat
deriving Repr, DecidableEq

/-- The relational store: committed table contents plus autoincrement counters.
Users are reduced to their ids (only FK checks read them). -/
structure DB where
  users : List Nat
  articles : List ArticleRow
  tags : List TagRow
  article_tags : List ArticleTagRow
  nextArticleId : Nat := 1
  nextTagId : Nat := 1
  nextATId : Nat := 1
deriving Repr, DecidableEq

/-- Errors raised by the store at flush/commit time. -/
inductive DbError
  | notNullViolation
  | uniqueViolation
  | fkViolation
deriving Repr, DecidableEq

/-- A pending ArticleTag object: the (article_id, tag_id) attribute values that
were captured when the Python object was constructed.  `none` is Python `None`
(the id of an object that has not been flushed yet). -/
abbrev PendAT := Option Nat × Option Nat

/-- Transient Article object built by the schema/task before any flush:
it has no id yet.  Field set as in app/models/article.py. -/
structure NewArticle where
  image : Option String := none
  slug : String
  title : String
  content : String
  author_id : Option Nat
  is_draft : Bool := true
  embedding : Option Vec := none
deriving Repr, DecidableEq

/-- Tag get-or-create, the Tag Resolver used identically by
ArticleResource.put, ArticleList.post and tasks/write_blog.py:
`Tag.query.filter_by(name=tag_name).first()`, and when absent
`db.session.add(Tag(name=tag_name)); db.session.flush()` which assigns the
autoincrement id and inserts the row inside the open transaction.
Returns the updated store and the resolved tag id. -/
def resolveTag (db : DB) (name : String) : DB × Nat :=
  match db.tags.find? (fun t => t.name = some name) with
  | some t => (db, t.id)
  | none =>
      let t : TagRow := { id := db.nextTagId, name := some name }
      ({ db with tags := db.tags ++ [t], nextTagId := db.nextTagId + 1 }, t.id)

/-- The `for tag_name in tags:` loop shared by the three write paths: resolve
each name and append a pending ArticleTag carrying the article-id attribute
value `aidVal` that the Python code read at construction time. -/
def addTagsLoop (aidVal : Option Nat) : DB → List PendAT → List String → DB × List PendAT
  | db, pend, [] => (db, pend)
  | db, pend, n :: ns =>
      let r := resolveTag db n
      addTagsLoop aidVal r.1 (pend ++ [(aidVal, some r.2)]) ns

/-- Flush of pending ArticleTag rows: each INSERT enforces NOT NULL on both
columns, the two foreign keys, and the UNIQUE (article_id, tag_id) constraint.
The first violation aborts the flush. -/
def insertATs (db : DB) : List PendAT → Except DbError DB
  | [] => .ok db
  | (a?, t?) :: rest =>
      match a?, t? with
      | some aid, some tid =>
          if (db.articles.any (fun r => r.id = aid)) ∧ (db.tags.any (fun r => r.id = tid)) then
            if db.article_tags.any (fun r => r.article_id = some aid ∧ r.tag_id = some tid) then
              .error .uniqueViolation
            else
              insertATs
                { db with
                  article_tags :=
                    db.article_tags ++ [{ id := db.nextATId, article_id := some aid, tag_id := some tid }],
                  nextATId := db.nextATId + 1 } rest
      else .error .fkViolation
      | _, _ => .error .notNullViolation

/-- Flush of a pending Article row: enforces slug uniqueness and the NOT NULL /
FK constraints on author_id, then assigns the autoincrement id. -/
def insertArticle (db : DB) (a : NewArticle) : Except DbError (DB × Nat) :=
  if db.articles.any (fun r => r.slug = a.slug) then .error .uniqueViolation
  else
    match a.author_id with
    | none => .error .notNullViolation
    | some u =>
        if db.users.any (fun x => x = u) then
          let row : ArticleRow :=
            { id := db.nextArticleId, image := a.image, slug := a.slug, title := a.title,
              content := a.content, author_id := some u, is_draft := a.is_draft,
              embedding := a.embedding }
          .ok ({ db with articles := db.articles ++ [row], nextArticleId := db.nextArticleId + 1 },
               db.nextArticleId)
        else .error .fkViolation

/-- The partial update the PUT schema layer can apply to a loaded article.
ArticleUpdate (app/api/schemas/article.py) declares exactly the optional
fields title, content, image, is_draft (tags are handled separately by the
resource); absent fields leave the row unchanged and the id is never part of
the schema. -/
structure ArticlePatch where
  title : Option String := none
  content : Option String := none
  image : Option (Option String) := none
  is_draft : Option Bool := none
deriving Repr, DecidableEq

/-- Merge the provided fields of a partial update into an article row. -/
def applyPatch (a : ArticleRow) (p : ArticlePatch) : ArticleRow :=
  { a with
    title := p.title.getD a.title
    content := p.content.getD a.content
    image := p.image.getD a.image
    is_draft := p.is_draft.getD a.is_draft }

/-- Outcome of the PUT handler. -/
inductive PutResult
  | notFound
  | serverError (db : DB) (e : DbError)
  | ok (db : DB) (enqueuedEmbedding : Nat)
deriving Repr, DecidableEq

/-- ArticleResource.put (app/api/resources/article.py): load the article or
404; apply the partial update; when the request body has a `tags` key, bulk
delete all ArticleTag rows of this article and re-create one association per
requested name through the Tag Resolver; commit; on success enqueue the
embedding task with the article id.  A failed commit rolls back to the
previously committed store. -/
def articleResource_put (db : DB) (articleId : Nat) (patch : ArticlePatch)
    (reqTags : Option (List String)) : PutResult :=
  match db.articles.find? (fun a => a.id = articleId) with
  | none => .notFound
  | some article =>
      let article' := applyPatch article patch
      let tagState :=
        match reqTags with
        | none => (db, ([] : List PendAT))
        | some names =>
            let db1 :=
              { db with article_tags := db.article_tags.filter (fun r => r.article_id ≠ some articleId) }
            addTagsLoop (some article.id) db1 [] names
      let dbU :=
        { tagState.1 with
          articles := tagState.1.articles.map (fun a => if a.id = articleId then article' else a) }
      match insertATs dbU tagState.2 with
      | .error e => .serverError db e
      | .ok db' => .ok db' articleId

/-- Outcome of the POST handler. -/
inductive PostResult
  | created (db : DB) (articleId : Nat)
  | serverError (db : DB) (e : DbError)
deriving Repr, DecidableEq

/-- Request body accepted by ArticleList.post (ArticleSchema fields). -/
structure CreateReq where
  title : String
  content : String
  slug : String
  image : Option String := none
  is_draft : Bool := true
  tags : Option (List String) := none
deriving Repr, DecidableEq

/-- ArticleList.post (app/api/resources/article.py): build a transient Article
from the request, set author_id from the authenticated caller, resolve each
requested tag name and construct a pending ArticleTag whose article_id is the
value of `article.id` at that moment — the article has not been added to the
session, let alone flushed, so that value is Python `None`.  Then add the
article and commit (article INSERT first, pending ArticleTags after); a failed
commit rolls back to the previously committed store. -/
def articleList_post (db : DB) (currentUserId : Nat) (req : CreateReq) : PostResult :=
  let article : NewArticle :=
    { slug := req.slug, title := req.title, content := req.content, image := req.image,
      author_id := some currentUserId, is_draft := req.is_draft }
  let transientArticleId : Option Nat := none
  let tagState :=
    match req.tags with
    | some names => addTagsLoop transientArticleId db [] names
    | none => (db, ([] : List PendAT))
  match insertArticle tagState.1 article with
  | .error e => .serverError db e
  | .ok (dbA, newId) =>
      match insertATs dbA tagState.2 with
      | .error e => .serverError db e
      | .ok db' => .created db' newId

/-- Outcome of the DELETE handler. -/
inductive DeleteResult
  | notFound
  | serverError (db : DB) (e : DbError)
  | deleted (db : DB)
deriving Repr, DecidableEq

/-- ArticleResource.delete (app/api/resources/article.py): load the article or
404, `db.session.delete(article)`, commit.  No ORM relationship between
Article and ArticleTag is configured anywhere in the application (the only
relationships are User.role, User.posts and Page.contents) and the
article_tags foreign keys carry no ON DELETE action, so the session deletes
only the articles row; a store that enforces the foreign key rejects the
DELETE when association rows still reference the article, rolling back. -/
def articleResource_delete (db : DB) (articleId : Nat) : DeleteResult :=
  match db.articles.find? (fun a => a.id = articleId) with
  | none => .notFound
  | some _ =>
      let db' := { db with articles := db.articles.filter (fun a => a.id ≠ articleId) }
      if db'.article_tags.any (fun r => r.article_id = some articleId) then
        .serverError db .fkViolation
      else .deleted db'

/-
Asynchronous tasks.  Celery itself is an external library; its documented
behaviour for a task declared with `bind=True, max_retries=3,
default_retry_delay=300` is modelled explicitly below: the worker runs the
task body; a body that calls `self.retry(exc=e)` is re-executed after the
fixed delay while the retry counter is below max_retries, and once the
counter reaches max_retries the retry call re-raises `e`, which the worker
records as a task failure (a structured failure record, not a crash of the
scheduler).  `app.extensions` is not part of the sources; its `celery`
object is modelled from the spec: logging through it succeeds and has no
effect on the store ("if missing, log and terminate").
-/

/-- Python exception values that the modelled code can raise. -/
inductive PyExc
  | attributeError (attr : String)
  | valueError (msg : String)
  | sqlAlchemyError (e : DbError)
  | generic (msg : String)
deriving Repr, DecidableEq

/-- The str(e) detail string attached to task failure records. -/
def excDetails : PyExc → String
  | .attributeError a => "AttributeError: " ++ a
  | .valueError m => m
  | .sqlAlchemyError _ => "database integrity error"
  | .generic m => m

/-- Python attribute access on an Article ORM object, restricted to the
string-valued columns the embedding task interpolates.  The Article model
declares the columns id, image, slug, title, content, author_id, created_at,
updated_at, is_draft and embedding; any other attribute name — in particular
`description` — raises AttributeError. -/
def articleStrAttr (a : ArticleRow) (attr : String) : Except PyExc String :=
  if attr = "slug" then .ok a.slug
  else if attr = "title" then .ok a.title
  else if attr = "content" then .ok a.content
  else .error (.attributeError attr)

/-- One execution of a Celery task body, as seen by the worker: the body
either returned normally (with the store it left behind) or caught an
exception and called `self.retry(exc=e)`. -/
inductive BodyOutcome
  | returned (db : DB)
  | retried (exc : PyExc) (db : DB)
deriving Repr, DecidableEq

/-- Value of the decorator argument max_retries=3 on
tasks.generate_article_embedding. -/
def generate_article_embedding_max_retries : Nat := 3

/-- Value of the decorator argument default_retry_delay=300 on
tasks.generate_article_embedding. -/
def generate_article_embedding_default_retry_delay : Nat := 300

/-- Body of tasks.generate_article_embedding (app/tasks/article_embeddings.py),
parametrised by the external embedding model `embedFn`
(extensions.embeddings.get_embedding).  Inside the try block: load the
article by id and return (after a warning log) when it is missing; otherwise
build the f-string `title \n description \n content` by attribute access,
embed it, store the vector on the row and commit.  Any exception is caught,
logged, and turned into `self.retry(exc=e)`. -/
def generate_article_embedding (embedFn : String → Except PyExc Vec)
    (db : DB) (articleId : Nat) : BodyOutcome :=
  match db.articles.find? (fun a => a.id = articleId) with
  | none => .returned db
  | some article =>
      let attempt : Except PyExc Vec := do
        let t ← articleStrAttr article "title"
        let d ← articleStrAttr article "description"
        let c ← articleStrAttr article "content"
        embedFn (t ++ "\n" ++ d ++ "\n" ++ c)
      match attempt with
      | .ok v =>
          .returned
            { db with
              articles := db.articles.map (fun a =>
                if a.id = articleId then { a with embedding := some v } else a) }
      | .error e => .retried e db

/-- What the worker finally records for a dispatched task instance.  There is
no third alternative: an exception re-raised by an exhausted retry is caught
by the worker and recorded as a failure, never surfaced as a crash. -/
inductive TaskRecord
  | succeeded
  | failedRecorded
deriving Repr, DecidableEq

/-- Trace of one dispatched task instance: how many times the body ran, the
delays the worker waited between consecutive runs, the recorded outcome and
the final store. -/
structure RunTrace where
  attempts : Nat
  delays : List Nat
  record : TaskRecord
  db : DB
deriving Repr, DecidableEq

/-- The Celery worker loop for a bound task: `budget` is the number of
retries still allowed.  A body that returns ends the instance successfully; a
body that called `self.retry` is re-run after `delay` while budget remains,
and otherwise the retry re-raises, which the worker records as a failure. -/
def celeryExec (run : DB → BodyOutcome) (delay : Nat) (db : DB) : Nat → RunTrace
  | 0 =>
      match run db with
      | .returned db' => { attempts := 1, delays := [], record := .succeeded, db := db' }
      | .retried _ db' => { attempts := 1, delays := [], record := .failedRecorded, db := db' }
  | budget + 1 =>
      match run db with
      | .returned db' => { attempts := 1, delays := [], record := .succeeded, db := db' }
      | .retried _ db' =>
          let t := celeryExec run delay db' budget
          { t with attempts := t.attempts + 1, delays := delay :: t.delays }

/-- A full dispatched run of the embedding task under its decorator
configuration. -/
def runEmbeddingTask (embedFn : String → Except PyExc Vec) (db : DB) (articleId : Nat) : RunTrace :=
  celeryExec (fun d => generate_article_embedding embedFn d articleId)
    generate_article_embedding_default_retry_delay db
    generate_article_embedding_max_retries

/-
Blog-writing pipeline (app/services/agents/writting_agent.py).  The LLM and
the search tool are external services, passed in as oracles.  The langgraph
StateGraph engine is modelled as the cooperative loop the workflow wires up:
research -> create_outline -> (write_section -> should_continue)* ->
analyze_content.
-/

/-- One Tavily search result, holding the fields the agent interpolates. -/
structure SearchResult where
  title : String
  content : String
deriving Repr, DecidableEq

/-- The mutable workflow state threaded through the pipeline (class BlogState).
The `messages` list and the metadata dict are omitted: the section loop never
reads them. -/
structure BlogState where
  topic : String := ""
  research_data : List SearchResult := []
  outline : List String := []
  current_section : Option String := none
  draft : String := ""
  status : String := "initialized"
deriving Repr, DecidableEq

/-- Python truthiness test `not state["current_section"]`: true for None and
for the empty string. -/
def pyFalsyOptStr : Option String → Bool
  | none => true
  | some s => s = ""

/-- Python `list.index(x)`: position of the first occurrence, None modelling
the ValueError raised when absent. -/
def pyIndex (x : String) : List String → Option Nat
  | [] => none
  | y :: ys => if y = x then some 0 else (pyIndex x ys).map (· + 1)

/-- The research context string interpolated into the write_section prompt. -/
def researchContext (rs : List SearchResult) : String :=
  String.intercalate "\n"
    (rs.enum.map (fun p => "Source " ++ toString (p.1 + 1) ++ ": " ++ p.2.title ++ " - " ++ p.2.content))

/-- The write_section prompt for one section of the post. -/
def sectionPrompt (topic : String) (rs : List SearchResult) (sec : String) : String :=
  "Write the following section of a blog post about " ++ topic ++ ":\n\nSection: " ++ sec
    ++ "\n\nUse this research for accurate information:\n" ++ researchContext rs
    ++ "\n\nWrite in an engaging, conversational style. Include relevant examples and data from the research."

/-- The draft extension performed by write_section: add a blank line only when
the draft is already non-empty, then append the new block. -/
def appendBlock (draft block : String) : String :=
  (if draft = "" then draft else draft ++ "\n\n") ++ block

/-- The heading-plus-body block write_section appends for one section. -/
def sectionBlock (llm : String → String) (topic : String) (rs : List SearchResult)
    (sec : String) : String :=
  "## " ++ sec ++ "\n\n" ++ llm (sectionPrompt topic rs sec)

/-- BlogWriterAgent.write_section: when the current-section pointer is falsy,
reset it to `outline[0]` (IndexError — modelled `none` — on an empty outline);
prompt the model, append the heading and response to the draft, then advance
the pointer to the entry after the first occurrence of the current section in
the outline (`outline.index`, ValueError — `none` — when absent), or clear it
at the end of the outline. -/
def write_section (llm : String → String) (st : BlogState) : Option BlogState :=
  let cur? : Option String :=
    if pyFalsyOptStr st.current_section then st.outline.head? else st.current_section
  match cur? with
  | none => none
  | some cur =>
      let draft' := appendBlock st.draft (sectionBlock llm st.topic st.research_data cur)
      match pyIndex cur st.outline with
      | none => none
      | some idx =>
          let next :=
            if idx + 1 < st.outline.length then st.outline.get? (idx + 1) else none
          some { st with draft := draft', current_section := next }

/-- The conditional edge should_continue in BlogWriterAgent.create_workflow:
route to analyze_content only when the pointer is exhausted and the draft is
truthy (non-empty). -/
def should_continue (st : BlogState) : String :=
  if st.current_section = none ∧ st.draft ≠ "" then "analyze" else "continue_writing"

/-- The cooperative section loop the workflow wires between write_section and
should_continue, with explicit fuel: `none` means the fuel ran out before the
loop routed to analyze (or a section step raised).  On completion it returns
the final state and the number of write_section iterations executed. -/
def sectionLoop (llm : String → String) : Nat → BlogState → Option (BlogState × Nat)
  | 0, _ => none
  | fuel + 1, st =>
      match write_section llm st with
      | none => none
      | some st' =>
          if should_continue st' = "analyze" then some (st', 1)
          else
            match sectionLoop llm fuel st' with
            | none => none
            | some (s, k) => some (s, k + 1)

/-- The draft produced by folding the section blocks of an outline in order. -/
def expectedDraft (blocks : List String) : String :=
  blocks.foldl appendBlock ""

/-
tasks/write_blog.py.  The workflow run (research, outline, drafting,
analysis, all against external services) is abstracted as an
`Except PyExc BlogState` oracle: the final pipeline state, or the exception
the pipeline raised.  slugify is the external python-slugify function,
passed as an oracle.
-/

/-- The dictionary a write_blog run returns: either the success record with
the persisted article's fields, or the structured error record built by the
exception handlers. -/
inductive TaskReturn
  | success (articleId : Nat) (slug : String) (title : String) (is_draft : Bool)
      (outline : List String) (research_data : List SearchResult)
  | error (category : String) (details : String)
deriving Repr, DecidableEq

/-- The error category string selected by write_blog's two except clauses:
SQLAlchemyError is reported as a database error, anything else as an
unexpected error. -/
def errorCategory : PyExc → String
  | .sqlAlchemyError _ => "Database error occurred"
  | _ => "An unexpected error occurred"

/-- The try block of tasks.write_blog: run the workflow, slugify the topic,
build the transient Article (is_draft explicitly True) and add it to the
session; when a non-empty tag list was supplied, the first `Tag.query` of the
loop autoflushes the session — inserting the pending article and assigning
its id — after which each name is resolved and a pending ArticleTag
(article.id, tag.id) is built; finally commit and return the success record.
Store errors surface as SQLAlchemyError. -/
def writeBlogBody (db : DB) (wf : Except PyExc BlogState) (slugFn : String → String)
    (topic : String) (authorId : Nat) (tags : Option (List String)) :
    Except PyExc (DB × TaskReturn) :=
  match wf with
  | .error e => .error e
  | .ok result =>
  let slug := slugFn topic
  let article : NewArticle :=
    { slug := slug, title := topic, content := result.draft,
      author_id := some authorId, is_draft := true }
  let runTags : Bool := match tags with
    | some names => names ≠ []
    | none => false
  if runTags then
    match insertArticle db article with
    | .error e => .error (.sqlAlchemyError e)
    | .ok (dbA, aid) =>
        let names := tags.getD []
        let tagState := addTagsLoop (some aid) dbA [] names
        match insertATs tagState.1 tagState.2 with
        | .error e => .error (.sqlAlchemyError e)
        | .ok db' =>
            .ok (db', .success aid slug topic article.is_draft result.outline result.research_data)
  else
    match insertArticle db article with
    | .error e => .error (.sqlAlchemyError e)
    | .ok (db', aid) =>
        .ok (db', .success aid slug topic article.is_draft result.outline result.research_data)

/-- tasks.write_blog: the try block wrapped in the two exception handlers,
which roll the session back to the previously committed store and return the
structured error record instead of raising.  The codomain has no exceptional
alternative: no exception escapes the task boundary. -/
def write_blog (db : DB) (wf : Except PyExc BlogState) (slugFn : String → String)
    (topic : String) (authorId : Nat) (tags : Option (List String)) : DB × TaskReturn :=
  match writeBlogBody db wf slugFn topic authorId tags with
  | .ok r => r
  | .error e => (db, .error (errorCategory e) (excDetails e))

/-
EmbeddingService (app/services/embedding.py).  The fastembed model is
external; `TextEmbedding.embed` computes one vector per input text, modelled
by mapping an oracle `f` over the batch.
-/

/-- Validation / computation errors raised by the embedding service; the
spec's taxonomy calls the input check a ValidationError (the code raises
ValueError). -/
inductive EmbErr
  | validationError (msg : String)
deriving Repr, DecidableEq

/-- Python `s.strip()`: drop leading and trailing whitespace.  (Implemented
over the character list so that it evaluates inside the kernel.) -/
def pyStrip (s : String) : String :=
  (((s.data.dropWhile Char.isWhitespace).reverse.dropWhile Char.isWhitespace).reverse).asString

/-- Python truthiness of the optional batch_size argument: None and 0 are
falsy, any other integer is truthy. -/
def pyTruthyOptInt : Option Int → Bool
  | none => false
  | some n => n ≠ 0

/-- The chunked loop `for i in range(0, len(texts), batch_size)`: consecutive
slices of size b, processed in order, results concatenated.  A negative step
makes the range empty (the loop body never runs); the fuel argument bounds the
iteration count by the list length, which a positive step never exceeds. -/
def embedChunksGo (f : String → Vec) (b : Nat) : Nat → List String → List Vec
  | 0, _ => []
  | _, [] => []
  | fuel + 1, ts => (ts.take b).map f ++ embedChunksGo f b fuel (ts.drop b)

/-- The batched branch of get_embeddings for a truthy batch_size. -/
def embedChunks (f : String → Vec) (b : Int) (texts : List String) : List Vec :=
  if b ≤ 0 then [] else embedChunksGo f b.toNat texts.length texts

/-- EmbeddingService.get_embeddings: reject an empty list and any input whose
strip() is empty; then either embed the whole list at once, or — when a
truthy batch_size is given — embed consecutive chunks of that size and
concatenate the per-text results in input order. -/
def get_embeddings (f : String → Vec) (texts : List String)
    (batch_size : Option Int) : Except EmbErr (List Vec) :=
  if texts = [] then .error (.validationError "Input must be a non-empty list of strings")
  else if ¬ texts.all (fun t => pyStrip t ≠ "") then
    .error (.validationError "All inputs must be non-empty strings")
  else if pyTruthyOptInt batch_size then
    .ok (embedChunks f (batch_size.getD 0) texts)
  else .ok (texts.map f)

/-
Theorems.  First the infrastructure for the tag-replacement property of the
PUT handler.
-/

/-- Well-formedness of the committed tags table: ids are pairwise distinct and
lie below the autoincrement counter.  Every store the modelled operations
commit preserves it; theorems take it as an explicit hypothesis on the
starting store. -/
def TagsWF (db : DB) : Prop :=
  (db.tags.map (fun t => t.id)).Nodup ∧ ∀ t ∈ db.tags, t.id < db.nextTagId

instance : DecidablePred TagsWF := fun db => by
  unfold TagsWF; infer_instance

/-- Name of the tag a given id resolves to in the store. -/
def tagNameOf (db : DB) (tid : Nat) : Option String :=
  (db.tags.find? (fun t => t.id = tid)).bind (fun t => t.name)

/-- The set of tag names currently associated with an article: the names of
the tags referenced by its ArticleTag rows. -/
def assocNames (db : DB) (aid : Nat) : List String :=
  db.article_tags.filterMap (fun r =>
    if r.article_id = some aid then
      match r.tag_id with
      | some tid => tagNameOf db tid
      | none => none
    else none)

theorem find?_prefix {α} (p : α → Bool) {l₁ : List α} (l₂ : List α) {x : α}
    (h : List.find? p l₁ = some x) : List.find? p (l₁ ++ l₂) = some x := by
  rw [List.find?_append, h]; rfl

theorem tagNameOf_congr {db db' : DB} (h : db'.tags = db.tags) :
    tagNameOf db' = tagNameOf db := by
  funext tid; unfold tagNameOf; rw [h]

theorem tagNameOf_extend {db db' : DB} (h : ∃ ts, db'.tags = db.tags ++ ts)
    {tid : Nat} {n : String} (hn : tagNameOf db tid = some n) :
    tagNameOf db' tid = some n := by
  obtain ⟨ts, hts⟩ := h
  unfold tagNameOf at hn ⊢
  cases hfind : db.tags.find? (fun t => t.id = tid) with
  | none => rw [hfind] at hn; exact absurd hn (by simp)
  | some t => rw [hts, find?_prefix _ _ hfind]; rw [hfind] at hn; exact hn

theorem find?_id_of_mem {l : List TagRow} (hnd : (l.map (fun t => t.id)).Nodup)
    {t : TagRow} (ht : t ∈ l) : l.find? (fun x => x.id = t.id) = some t := by
  induction l with
  | nil => cases ht
  | cons h rest ih =>
      rw [List.map_cons, List.nodup_cons] at hnd
      rcases List.mem_cons.mp ht with rfl | hmem
      · simp [List.find?_cons]
      · have hne : h.id ≠ t.id := fun he => hnd.1 (he ▸ List.mem_map_of_mem _ hmem)
        rw [List.find?_cons_of_neg _ (by simpa using hne)]
        exact ih hnd.2 hmem

theorem resolveTag_frame (db : DB) (n : String) :
    (resolveTag db n).1.users = db.users ∧ (resolveTag db n).1.articles = db.articles ∧
    (resolveTag db n).1.article_tags = db.article_tags := by
  unfold resolveTag
  cases db.tags.find? (fun t => t.name = some n) <;> exact ⟨rfl, rfl, rfl⟩

theorem resolveTag_tags_extend (db : DB) (n : String) :
    ∃ ts, (resolveTag db n).1.tags = db.tags ++ ts := by
  unfold resolveTag
  cases db.tags.find? (fun t => t.name = some n) with
  | none => exact ⟨_, rfl⟩
  | some t => exact ⟨[], (List.append_nil _).symm⟩

theorem resolveTag_WF {db : DB} (hw : TagsWF db) (n : String) :
    TagsWF (resolveTag db n).1 := by
  obtain ⟨hnd, hb⟩ := hw
  unfold resolveTag
  cases db.tags.find? (fun t => t.name = some n) with
  | some t => exact ⟨hnd, hb⟩
  | none =>
      constructor
      · rw [List.map_append, List.nodup_append]
        refine ⟨hnd, List.nodup_singleton _, ?_⟩
        intro x hx hx1
        rcases List.mem_map.mp hx with ⟨t, htmem, rfl⟩
        have := hb t htmem
        simp at hx1
        omega
      · intro t htmem
        rcases List.mem_append.mp htmem with hmem | hmem
        · exact Nat.lt_succ_of_lt (hb t hmem)
        · simp at hmem; subst hmem; exact Nat.lt_succ_self _

theorem resolveTag_name {db : DB} (hw : TagsWF db) (n : String) :
    tagNameOf (resolveTag db n).1 (resolveTag db n).2 = some n := by
  obtain ⟨hnd, hb⟩ := hw
  unfold resolveTag
  cases hfind : db.tags.find? (fun t => t.name = some n) with
  | some t =>
      have hname : t.name = some n := by
        have := List.find?_some hfind
        simpa using this
      have hmem := List.mem_of_find?_eq_some hfind
      unfold tagNameOf
      simp only [find?_id_of_mem hnd hmem, Option.bind_some]
      exact hname
  | none =>
      unfold tagNameOf
      have hpre : db.tags.find? (fun x => x.id = db.nextTagId) = none := by
        rw [List.find?_eq_none]
        intro t htmem
        have := hb t htmem
        simp
        omega
      simp only [List.find?_append, hpre, Option.none_or]
      simp [List.find?_cons]

theorem addTagsLoop_spec (aidVal : Option Nat) :
    ∀ (names : List String) (db : DB) (pend : List PendAT), TagsWF db →
    TagsWF (addTagsLoop aidVal db pend names).1 ∧
    ((addTagsLoop aidVal db pend names).1.users = db.users ∧
      (addTagsLoop aidVal db pend names).1.articles = db.articles ∧
      (addTagsLoop aidVal db pend names).1.article_tags = db.article_tags) ∧
    (∃ ts, (addTagsLoop aidVal db pend names).1.tags = db.tags ++ ts) ∧
    ∃ newPend, (addTagsLoop aidVal db pend names).2 = pend ++ newPend ∧
      List.Forall₂ (fun n p => p.1 = aidVal ∧ ∃ tid, p.2 = some tid ∧
        tagNameOf (addTagsLoop aidVal db pend names).1 tid = some n) names newPend := by
  intro names
  induction names with
  | nil =>
      intro db pend hw
      exact ⟨hw, ⟨rfl, rfl, rfl⟩, ⟨[], (List.append_nil _).symm⟩,
        ⟨[], (List.append_nil _).symm, List.Forall₂.nil⟩⟩
  | cons n ns ih =>
      intro db pend hw
      have hstep : addTagsLoop aidVal db pend (n :: ns) =
          addTagsLoop aidVal (resolveTag db n).1 (pend ++ [(aidVal, some (resolveTag db n).2)]) ns := rfl
      have hw1 := resolveTag_WF hw n
      obtain ⟨hwF, ⟨hu, ha, hat⟩, ⟨ts, hts⟩, ⟨newPend, hpend, hall⟩⟩ :=
        ih (resolveTag db n).1 (pend ++ [(aidVal, some (resolveTag db n).2)]) hw1
      obtain ⟨hu0, ha0, hat0⟩ := resolveTag_frame db n
      obtain ⟨ts0, hts0⟩ := resolveTag_tags_extend db n
      rw [hstep]
      refine ⟨hwF, ⟨hu.trans hu0, ha.trans ha0, hat.trans hat0⟩,
        ⟨ts0 ++ ts, by rw [hts, hts0, List.append_assoc]⟩,
        ⟨(aidVal, some (resolveTag db n).2) :: newPend, by rw [hpend]; simp, ?_⟩⟩
      refine List.forall₂_cons.mpr ⟨⟨rfl, (resolveTag db n).2, rfl, ?_⟩, hall⟩
      exact tagNameOf_extend ⟨ts, hts⟩ (resolveTag_name hw n)

theorem insertATs_spec :
    ∀ (pend : List PendAT) (db db' : DB), insertATs db pend = .ok db' →
    (db'.users = db.users ∧ db'.articles = db.articles ∧ db'.tags = db.tags) ∧
    ∃ rows, db'.article_tags = db.article_tags ++ rows ∧
      List.Forall₂ (fun (p : PendAT) (r : ArticleTagRow) =>
        r.article_id = p.1 ∧ r.tag_id = p.2) pend rows := by
  intro pend
  induction pend with
  | nil =>
      intro db db' h
      cases h
      exact ⟨⟨rfl, rfl, rfl⟩, [], (List.append_nil _).symm, List.Forall₂.nil⟩
  | cons p rest ih =>
      intro db db' h
      obtain ⟨a?, t?⟩ := p
      match a?, t? with
      | none, none => exact absurd h (by simp [show insertATs db ((none, none) :: rest) = .error .notNullViolation from rfl])
      | none, some tid => exact absurd h (by simp [show insertATs db ((none, some tid) :: rest) = .error .notNullViolation from rfl])
      | some aid, none => exact absurd h (by simp [show insertATs db ((some aid, none) :: rest) = .error .notNullViolation from rfl])
      | some aid, some tid =>
          rw [insertATs] at h
          split at h
          · split at h
            · exact absurd h (by simp)
            · obtain ⟨⟨hu, ha, ht⟩, rows, hrows, hall⟩ := ih _ _ h
              refine ⟨⟨hu, ha, ht⟩,
                { id := db.nextATId, article_id := some aid, tag_id := some tid } :: rows, ?_, ?_⟩
              · rw [hrows]; exact List.append_assoc _ _ _
              · exact List.forall₂_cons.mpr ⟨⟨rfl, rfl⟩, hall⟩
          · exact absurd h (by simp)

theorem filterMap_assoc_rows {aid : Nat} {g : Nat → Option String} :
    ∀ {names : List String} {pend : List PendAT} {rows : List ArticleTagRow},
    List.Forall₂ (fun n p => p.1 = some aid ∧ ∃ tid, p.2 = some tid ∧ g tid = some n) names pend →
    List.Forall₂ (fun (p : PendAT) (r : ArticleTagRow) =>
      r.article_id = p.1 ∧ r.tag_id = p.2) pend rows →
    rows.filterMap (fun r =>
      if r.article_id = some aid then
        match r.tag_id with
        | some tid => g tid
        | none => none
      else none) = names := by
  intro names pend rows h1 h2
  induction h1 generalizing rows with
  | nil => cases h2; rfl
  | @cons n p ns ps hnp htail ih =>
      cases h2 with
      | cons hpr h2tail =>
          rename_i r rs
          obtain ⟨hp1, tid, hp2, hname⟩ := hnp
          obtain ⟨hr1, hr2⟩ := hpr
          rw [List.filterMap_cons]
          have hf : (if r.article_id = some aid then
              match r.tag_id with
              | some tid => g tid
              | none => none
            else none) = some n := by
            rw [hr1, hp1, if_pos rfl, hr2, hp2]
            exact hname
          rw [hf, ih h2tail]

/-- C1: for every article update request whose body contains a `tags` key with
a list of tag names, after the PUT completes successfully the set of
ArticleTag associations of that article equals exactly the set of tags named
in the request, regardless of how it overlaps the prior association set
(full-replace, not incremental diff). -/
theorem put_tags_full_replace (db : DB) (articleId : Nat) (patch : ArticlePatch)
    (names : List String) (db' : DB) (enq : Nat) (hwf : TagsWF db)
    (h : articleResource_put db articleId patch (some names) = .ok db' enq) :
    ∀ n, n ∈ assocNames db' articleId ↔ n ∈ names := by
  unfold articleResource_put at h
  cases hfind : db.articles.find? (fun a => a.id = articleId) with
  | none => rw [hfind] at h; exact absurd h (by simp)
  | some article =>
      rw [hfind] at h
      dsimp only at h
      have harid : article.id = articleId := by
        have := List.find?_some hfind; simpa using this
      set db1 : DB :=
        { db with article_tags := db.article_tags.filter (fun r => r.article_id ≠ some articleId) }
        with hdb1
      set tagRes := addTagsLoop (some article.id) db1 [] names with htagRes
      set dbU : DB :=
        { tagRes.1 with
          articles := tagRes.1.articles.map (fun a => if a.id = articleId then applyPatch article patch else a) }
        with hdbU
      cases hins : insertATs dbU tagRes.2 with
      | error e => rw [hins] at h; exact absurd h (by simp)
      | ok db2 =>
          rw [hins] at h
          have hdb2 : db2 = db' := by
            have := h; simp only [PutResult.ok.injEq] at this; exact this.1
          subst hdb2
          have hwf1 : TagsWF db1 := hwf
          obtain ⟨hwF, ⟨hu1, ha1, hat1⟩, ⟨ts, hts⟩, newPend, hpend, hall⟩ :=
            addTagsLoop_spec (some article.id) names db1 [] hwf1
          obtain ⟨⟨hu2, ha2, ht2⟩, rows, hrows, hall2⟩ := insertATs_spec tagRes.2 dbU db2 hins
          have htagsEq : db2.tags = tagRes.1.tags := ht2
          have hcongr : tagNameOf db2 = tagNameOf tagRes.1 := tagNameOf_congr htagsEq
          have hatU : dbU.article_tags = db.article_tags.filter (fun r => r.article_id ≠ some articleId) := hat1
          have hkey : assocNames db2 articleId = names := by
            unfold assocNames
            rw [hrows, hatU, List.filterMap_append, hcongr]
            have hleft : (db.article_tags.filter (fun r => r.article_id ≠ some articleId)).filterMap
                (fun r =>
                  if r.article_id = some articleId then
                    match r.tag_id with
                    | some tid => tagNameOf tagRes.1 tid
                    | none => none
                  else none) = [] := by
              rw [List.filterMap_eq_nil_iff]
              intro r hr
              have := (List.mem_filter.mp hr).2
              simp only [decide_eq_true_eq] at this
              rw [if_neg this]
            rw [hleft, List.nil_append]
            have hpend' : tagRes.2 = newPend := by simpa using hpend
            rw [hpend'] at hall2
            have hall' : List.Forall₂ (fun n p => p.1 = some articleId ∧
                ∃ tid, p.2 = some tid ∧ tagNameOf tagRes.1 tid = some n) names newPend := by
              rw [← harid]; exact hall
            exact filterMap_assoc_rows hall' hall2
          intro n
          rw [hkey]

/-- A concrete committed store for exercising the handlers: one author, one
article tagged x and y. -/
def c1Article : ArticleRow :=
  { id := 1, slug := "a", title := "A", content := "c", author_id := some 1 }

def c1db : DB where
  users := [1]
  articles := [c1Article]
  tags := [{ id := 1, name := some "x" }, { id := 2, name := some "y" }]
  article_tags := [{ id := 1, article_id := some 1, tag_id := some 1 },
                   { id := 2, article_id := some 1, tag_id := some 2 }]
  nextArticleId := 2
  nextTagId := 3
  nextATId := 3

/-- The store after PUT with tags ["y", "z"] on c1db: the old x and y
associations are gone, y was reused, z was created. -/
def c1db' : DB where
  users := [1]
  articles := [c1Article]
  tags := [{ id := 1, name := some "x" }, { id := 2, name := some "y" },
           { id := 3, name := some "z" }]
  article_tags := [{ id := 3, article_id := some 1, tag_id := some 2 },
                   { id := 4, article_id := some 1, tag_id := some 3 }]
  nextArticleId := 2
  nextTagId := 4
  nextATId := 5

/-- Witness for C1: the hypotheses of put_tags_full_replace hold at a concrete
update whose new tag set ["y", "z"] partially overlaps the prior set
{x, y}, and the replacement property follows for it. -/
theorem put_tags_full_replace_witness :
    TagsWF c1db ∧ ("y" ∈ assocNames c1db' 1 ↔ "y" ∈ ["y", "z"]) :=
  ⟨by decide, put_tags_full_replace c1db 1 {} ["y", "z"] c1db' 1 (by decide) (by decide) "y"⟩

/-- The empty store with one registered author. -/
def emptyDb : DB where
  users := [1]
  articles := []
  tags := []
  article_tags := []

/-- A create request naming one tag. -/
def c2req : CreateReq where
  title := "A"
  content := "c"
  slug := "a"
  tags := some ["x"]

/-- C2 (refuting evaluation): creating an article with tags ["x"] on an empty
store fails.  The pending ArticleTag was built with article_id = article.id
while the article was still transient, so it carries NULL; the commit hits the
NOT NULL constraint, the transaction rolls back, and afterwards no Tag row
named x exists at all — not the exactly-one row the claim requires.  (Get-or-
create itself is duplicate-free; it is the create path that loses the rows.) -/
theorem post_create_with_tags_fails_not_null :
    articleList_post emptyDb 1 c2req = .serverError emptyDb .notNullViolation ∧
    (emptyDb.tags.filter (fun t => t.name = some "x")).length = 0 := by
  exact ⟨by decide, rfl⟩

/-- C3 (refuting evaluation): deleting article 1 of c1db, which has two tag
associations, does not cascade.  No ORM relationship or ON DELETE action
exists, so only the articles row is deleted and the article_tags foreign key
rejects the commit: the API returns a server error, the store is rolled back,
and the association rows still reference the article. -/
theorem delete_with_associations_fails_fk :
    articleResource_delete c1db 1 = .serverError c1db .fkViolation ∧
    c1db.article_tags.any (fun r => r.article_id = some 1) = true := by
  exact ⟨by decide, by decide⟩

/-- C4 (refuting evaluation): running the embedding task on the existing
article 1 of c1db, even with an embedding model that always succeeds, raises
AttributeError on `article.description` — the Article model has no such
column — so the task stores nothing and calls self.retry instead of
committing an embedding. -/
theorem embedding_task_raises_attribute_error :
    generate_article_embedding (fun _ => .ok [1]) c1db 1 =
      .retried (.attributeError "description") c1db := by
  decide

/-- C6: when the underlying work of the embedding task raises on every
attempt, the worker executes the body 1 + max_retries = 4 times, waiting the
fixed default_retry_delay = 300 between consecutive attempts (exactly 3
retries), and finally records a structured failure — the codomain of
celeryExec has no crash alternative, so nothing propagates out of the task
boundary. -/
theorem embedding_retry_policy (run : DB → BodyOutcome) (db : DB)
    (h : ∃ e, run db = .retried e db) :
    celeryExec run generate_article_embedding_default_retry_delay db
        generate_article_embedding_max_retries =
      { attempts := 1 + generate_article_embedding_max_retries,
        delays := List.replicate generate_article_embedding_max_retries
          generate_article_embedding_default_retry_delay,
        record := .failedRecorded, db := db } := by
  obtain ⟨e, he⟩ := h
  simp [celeryExec, generate_article_embedding_max_retries,
    generate_article_embedding_default_retry_delay, he, List.replicate]

/-- Witness for C6: the actual embedding task body retries on every attempt
when the article exists (the embedding call itself failing), and the full
dispatched run makes 4 attempts with three 300-delays and a recorded
failure. -/
theorem embedding_retry_policy_witness :
    runEmbeddingTask (fun _ => .error (.generic "embedding backend down")) c1db 1 =
      { attempts := 4, delays := [300, 300, 300], record := .failedRecorded, db := c1db } := by
  have h := embedding_retry_policy
    (fun d => generate_article_embedding (fun _ => .error (.generic "embedding backend down")) d 1)
    c1db ⟨.attributeError "description", by decide⟩
  simpa [runEmbeddingTask, generate_article_embedding_max_retries,
    generate_article_embedding_default_retry_delay, List.replicate] using h

/-- C8: running the embedding task with an article id that no row carries is a
no-op: the body returns normally (no exception, no retry request) with the
store unchanged, and the full dispatched run is a single successful attempt
with no delays. -/
theorem embedding_task_missing_article_noop (embedFn : String → Except PyExc Vec)
    (db : DB) (articleId : Nat)
    (h : db.articles.find? (fun a => a.id = articleId) = none) :
    generate_article_embedding embedFn db articleId = .returned db ∧
    runEmbeddingTask embedFn db articleId =
      { attempts := 1, delays := [], record := .succeeded, db := db } := by
  have hbody : generate_article_embedding embedFn db articleId = .returned db := by
    unfold generate_article_embedding; rw [h]
  refine ⟨hbody, ?_⟩
  unfold runEmbeddingTask generate_article_embedding_max_retries
  rw [celeryExec, hbody]

/-- Witness for C8: the empty store has no article 7 and the task run on it is
a successful no-op. -/
theorem embedding_task_missing_article_noop_witness :
    emptyDb.articles.find? (fun a => a.id = 7) = none ∧
    generate_article_embedding (fun _ => .ok [1]) emptyDb 7 = .returned emptyDb := by
  exact ⟨by decide,
    (embedding_task_missing_article_noop (fun _ => .ok [1]) emptyDb 7 (by decide)).1⟩

/-- C7: whenever the try block of write_blog raises — a SQLAlchemyError
during persistence or any other exception — the task rolls the session back
to the previously committed store and returns the structured error record
with the category string of the matching except clause; the codomain of
write_blog has no exceptional alternative, so no exception escapes the task
boundary. -/
theorem write_blog_error_handling (db : DB) (wf : Except PyExc BlogState)
    (slugFn : String → String) (topic : String) (authorId : Nat)
    (tags : Option (List String)) (e : PyExc)
    (h : writeBlogBody db wf slugFn topic authorId tags = .error e) :
    write_blog db wf slugFn topic authorId tags =
      (db, .error (errorCategory e) (excDetails e)) ∧
    ((∃ de, e = .sqlAlchemyError de) ↔ errorCategory e = "Database error occurred") := by
  constructor
  · unfold write_blog; rw [h]
  · cases e <;> simp [errorCategory]

/-- Witness for C7: a database error during persistence (duplicate slug while
committing the drafted article on c1db) yields the rolled-back store and the
database error record. -/
theorem write_blog_error_handling_witness :
    write_blog c1db (.ok { draft := "d", outline := ["o"] }) (fun s => s) "a" 1 none =
      (c1db, .error "Database error occurred" "database integrity error") := by
  exact (write_blog_error_handling c1db (.ok { draft := "d", outline := ["o"] })
    (fun s => s) "a" 1 none (.sqlAlchemyError .uniqueViolation) rfl).1

/-- Well-formedness of the committed articles table: ids lie below the
autoincrement counter. -/
def ArticlesWF (db : DB) : Prop := ∀ a ∈ db.articles, a.id < db.nextArticleId

instance : DecidablePred ArticlesWF := fun db => by
  unfold ArticlesWF; infer_instance

theorem insertArticle_spec {db : DB} {a : NewArticle} {dbA : DB} {newId : Nat}
    (h : insertArticle db a = .ok (dbA, newId)) :
    newId = db.nextArticleId ∧ ∃ u, a.author_id = some u ∧
    dbA = { db with
      articles := db.articles ++
        [{ id := db.nextArticleId, image := a.image, slug := a.slug, title := a.title,
           content := a.content, author_id := some u, is_draft := a.is_draft,
           embedding := a.embedding }],
      nextArticleId := db.nextArticleId + 1 } := by
  unfold insertArticle at h
  split at h
  · exact absurd h (by simp)
  · cases hau : a.author_id with
    | none => rw [hau] at h; exact absurd h (by simp)
    | some u =>
        rw [hau] at h
        dsimp only at h
        split at h
        · refine ⟨?_, u, rfl, ?_⟩ <;>
            · have := h; simp only [Except.ok.injEq, Prod.mk.injEq] at this
              first
                | exact this.2.symm
                | exact this.1.symm
        · exact absurd h (by simp)

theorem find?_new_article {db : DB} (hwf : ArticlesWF db) (row : ArticleRow)
    (hrow : row.id = db.nextArticleId) :
    (db.articles ++ [row]).find? (fun a => a.id = db.nextArticleId) = some row := by
  rw [List.find?_append]
  have hnone : db.articles.find? (fun a => a.id = db.nextArticleId) = none := by
    rw [List.find?_eq_none]
    intro a ha
    have := hwf a ha
    simp
    omega
  rw [hnone]
  simp [List.find?_cons, hrow]

theorem addTagsLoop_frame (aidVal : Option Nat) :
    ∀ (names : List String) (db : DB) (pend : List PendAT),
    (addTagsLoop aidVal db pend names).1.users = db.users ∧
    (addTagsLoop aidVal db pend names).1.articles = db.articles ∧
    (addTagsLoop aidVal db pend names).1.article_tags = db.article_tags := by
  intro names
  induction names with
  | nil => intro db pend; exact ⟨rfl, rfl, rfl⟩
  | cons n ns ih =>
      intro db pend
      obtain ⟨hu, ha, hat⟩ := ih (resolveTag db n).1 (pend ++ [(aidVal, some (resolveTag db n).2)])
      obtain ⟨hu0, ha0, hat0⟩ := resolveTag_frame db n
      exact ⟨hu.trans hu0, ha.trans ha0, hat.trans hat0⟩

/-- The committed row a flushed transient Article becomes (id assigned from
the autoincrement counter). -/
def newArticleRow (db : DB) (a : NewArticle) (u : Nat) : ArticleRow :=
  { id := db.nextArticleId, image := a.image, slug := a.slug, title := a.title,
    content := a.content, author_id := some u, is_draft := a.is_draft,
    embedding := a.embedding }

theorem insertArticle_spec2 {db : DB} {a : NewArticle} {dbA : DB} {newId : Nat}
    (h : insertArticle db a = .ok (dbA, newId)) :
    newId = db.nextArticleId ∧ ∃ u, a.author_id = some u ∧
    dbA.articles = db.articles ++ [newArticleRow db a u] := by
  obtain ⟨h1, u, h2, h3⟩ := insertArticle_spec h
  exact ⟨h1, u, h2, by rw [h3]; rfl⟩

/-- C10: whatever the topic, author, tag list and pipeline output, an article
that write_blog persists successfully carries is_draft = true, both in the
returned success record and on the committed row. -/
theorem write_blog_success_is_draft (db : DB) (wf : Except PyExc BlogState)
    (slugFn : String → String) (topic : String) (authorId : Nat)
    (tags : Option (List String)) (db' : DB) (aid : Nat) (slug title : String)
    (isDraft : Bool) (outline : List String) (research : List SearchResult)
    (hwf : ArticlesWF db)
    (h : write_blog db wf slugFn topic authorId tags =
      (db', .success aid slug title isDraft outline research)) :
    isDraft = true ∧
    ∃ row, db'.articles.find? (fun a => a.id = aid) = some row ∧ row.is_draft = true := by
  unfold write_blog at h
  cases hbody : writeBlogBody db wf slugFn topic authorId tags with
  | error e => rw [hbody] at h; simp at h
  | ok r =>
      rw [hbody] at h
      subst h
      unfold writeBlogBody at hbody
      cases hwfres : wf with
      | error e => rw [hwfres] at hbody; exact absurd hbody (by simp)
      | ok result =>
          rw [hwfres] at hbody
          dsimp only at hbody
          split at hbody
          · -- tag path: article flushed at the first query, then associations
            cases hins : insertArticle db
                { slug := slugFn topic, title := topic, content := result.draft,
                  author_id := some authorId, is_draft := true } with
            | error e => rw [hins] at hbody; exact absurd hbody (by simp)
            | ok p =>
                obtain ⟨dbA, aid0⟩ := p
                rw [hins] at hbody
                dsimp only at hbody
                cases hats : insertATs
                    (addTagsLoop (some aid0) dbA [] (tags.getD [])).1
                    (addTagsLoop (some aid0) dbA [] (tags.getD [])).2 with
                | error e => rw [hats] at hbody; exact absurd hbody (by simp)
                | ok db2 =>
                    rw [hats] at hbody
                    simp only [Except.ok.injEq, Prod.mk.injEq, TaskReturn.success.injEq] at hbody
                    obtain ⟨hdb2, haid, _, _, hdraft, _, _⟩ := hbody
                    refine ⟨hdraft.symm, ?_⟩
                    obtain ⟨haid0, u, hau, hdbA⟩ := insertArticle_spec2 hins
                    obtain ⟨⟨_, ha2, _⟩, _, _⟩ := insertATs_spec _ _ _ hats
                    obtain ⟨_, haf, _⟩ := addTagsLoop_frame (some aid0) (tags.getD []) dbA []
                    refine ⟨newArticleRow db
                      { slug := slugFn topic, title := topic, content := result.draft,
                        author_id := some authorId, is_draft := true } u, ?_, rfl⟩
                    rw [← hdb2, ha2, haf, hdbA, ← haid, haid0]
                    exact find?_new_article hwf _ rfl
          · cases hins : insertArticle db
                { slug := slugFn topic, title := topic, content := result.draft,
                  author_id := some authorId, is_draft := true } with
            | error e => rw [hins] at hbody; exact absurd hbody (by simp)
            | ok p =>
                obtain ⟨dbA, aid0⟩ := p
                rw [hins] at hbody
                simp only [Except.ok.injEq, Prod.mk.injEq, TaskReturn.success.injEq] at hbody
                obtain ⟨hdb2, haid, _, _, hdraft, _, _⟩ := hbody
                refine ⟨hdraft.symm, ?_⟩
                obtain ⟨haid0, u, hau, hdbA⟩ := insertArticle_spec2 hins
                refine ⟨newArticleRow db
                  { slug := slugFn topic, title := topic, content := result.draft,
                    author_id := some authorId, is_draft := true } u, ?_, rfl⟩
                rw [← hdb2, hdbA, ← haid, haid0]
                exact find?_new_article hwf _ rfl

/-- Witness for C10: a successful run on the empty store persists a draft
article as row 1. -/
theorem write_blog_success_is_draft_witness :
    true = true ∧
    ∃ row,
      ((write_blog emptyDb (.ok { draft := "d", outline := ["o"] }) (fun s => s) "t" 1 none).1).articles.find?
        (fun a => a.id = 1) = some row ∧ row.is_draft = true := by
  exact write_blog_success_is_draft emptyDb (.ok { draft := "d", outline := ["o"] })
    (fun s => s) "t" 1 none _ 1 "t" "t" true ["o"] [] (by decide) rfl

theorem embedChunksGo_eq_map (f : String → Vec) (b : Nat) (hb : 0 < b) :
    ∀ (fuel : Nat) (ts : List String), ts.length ≤ fuel →
    embedChunksGo f b fuel ts = ts.map f := by
  intro fuel
  induction fuel with
  | zero =>
      intro ts h
      have : ts = [] := List.length_eq_zero.mp (Nat.le_zero.mp h)
      subst this; rfl
  | succ n ih =>
      intro ts h
      cases ts with
      | nil => rfl
      | cons t ts' =>
          rw [embedChunksGo]
          have hlen : ((t :: ts').drop b).length ≤ n := by
            rw [List.length_drop]
            simp only [List.length_cons] at h ⊢
            omega
          rw [ih _ hlen, ← List.map_append, List.take_append_drop]
          intro hc
          cases hc

/-- C9: for every positive batch size, batch embedding chunks the texts into
consecutive groups of that size, processes them in order and concatenates the
per-text results, equalling batch embedding with no batch size given; and it
fails with the validation error whenever any input text is empty. -/
theorem get_embeddings_batching (f : String → Vec) (texts : List String) :
    (∀ b : Int, 0 < b →
      get_embeddings f texts (some b) = get_embeddings f texts none) ∧
    (∀ bs : Option Int, "" ∈ texts →
      get_embeddings f texts bs =
        .error (.validationError "All inputs must be non-empty strings")) := by
  constructor
  · intro b hb
    by_cases h1 : texts = []
    · simp [get_embeddings, h1]
    · by_cases h2 : texts.all (fun t => pyStrip t ≠ "")
      · have hbt : pyTruthyOptInt (some b) = true := by
          simp [pyTruthyOptInt]; omega
        have hbn : pyTruthyOptInt none = false := rfl
        simp only [get_embeddings, h1, if_false, h2, not_true_eq_false, hbt, hbn,
          if_true, Bool.false_eq_true, Option.getD_some]
        unfold embedChunks
        rw [if_neg (by omega)]
        exact congrArg Except.ok
          (embedChunksGo_eq_map f b.toNat (by omega) texts.length texts le_rfl)
      · unfold get_embeddings
        rw [if_neg h1, if_pos h2, if_neg h1, if_pos h2]
  · intro bs hmem
    have h1 : texts ≠ [] := by intro he; rw [he] at hmem; cases hmem
    have h2 : ¬ (texts.all (fun t => pyStrip t ≠ "") = true) := by
      rw [List.all_eq_true]
      intro hall
      have := hall "" hmem
      simp at this
      exact this (by decide)
    unfold get_embeddings
    rw [if_neg h1, if_pos h2]

/-- Witness for C9: a concrete batched run with batch size 2 equals the
unbatched run, and a list containing an empty text is rejected. -/
theorem get_embeddings_batching_witness :
    get_embeddings (fun s => [Int.ofNat s.length]) ["aa", "b", "ccc"] (some 2) =
      get_embeddings (fun s => [Int.ofNat s.length]) ["aa", "b", "ccc"] none ∧
    get_embeddings (fun s => [Int.ofNat s.length]) ["aa", ""] (some 2) =
      .error (.validationError "All inputs must be non-empty strings") := by
  exact ⟨(get_embeddings_batching (fun s => [Int.ofNat s.length]) ["aa", "b", "ccc"]).1 2
      (by decide),
    (get_embeddings_batching (fun s => [Int.ofNat s.length]) ["aa", ""]).2 (some 2)
      (by decide)⟩

/-- Split a character list at newline characters (Python str.split of a
single-character separator: empty input gives one empty field). -/
def splitNl : List Char → List (List Char)
  | [] => [[]]
  | c :: cs =>
      if c = '\n' then [] :: splitNl cs
      else
        match splitNl cs with
        | [] => [[c]]
        | h :: t => (c :: h) :: t

/-- Python `response.content.split('\n')`. -/
def pySplitNewline (s : String) : List String := (splitNl s.data).map List.asString

/-- The outline construction in BlogWriterAgent.create_outline:
`[line.strip() for line in response.content.split('\n') if line.strip()]` —
strip every line and keep the non-blank ones (stripping twice equals
stripping once). -/
def createOutlineLines (response : String) : List String :=
  ((pySplitNewline response).map pyStrip).filter (fun l => l ≠ "")

/-- The section-writing LLM used in the counterexample run. -/
def llmStub : String → String := fun _ => "body"

/-- A pipeline state whose outline stage produced a duplicated heading: the
outline has 3 entries but two of them are the same line. -/
def dupOutlineState : BlogState := { topic := "T", outline := ["Intro", "Intro", "End"] }

/-- The section loop never reaches the analyze edge from this state, whatever
fuel the driver grants it. -/
def sectionLoopDiverges (llm : String → String) (st : BlogState) : Prop :=
  ∀ fuel, sectionLoop llm fuel st = none

/-- C5 counterexample: an outline of 3 entries that the outline stage can
produce (two identical headings) on which the section loop never terminates:
`outline.index(current_section)` always returns the first occurrence, so the
pointer is re-derived as position 0 and re-advanced to the duplicate
forever — it never strictly advances past it, the third entry is never
written, and should_continue never routes to analyze. -/
theorem section_loop_diverges_on_duplicate_outline :
    dupOutlineState.outline = createOutlineLines "Intro\nIntro\nEnd" ∧
    sectionLoopDiverges llmStub dupOutlineState := by
  constructor
  · decide
  · have key : ∀ st : BlogState, st.outline = ["Intro", "Intro", "End"] →
        (st.current_section = none ∨ st.current_section = some "Intro") →
        ∃ st', write_section llmStub st = some st' ∧
          st'.outline = ["Intro", "Intro", "End"] ∧
          st'.current_section = some "Intro" := by
      intro st ho hc
      refine ⟨{ st with
          draft := appendBlock st.draft (sectionBlock llmStub st.topic st.research_data "Intro"),
          current_section := some "Intro" }, ?_, ho, rfl⟩
      unfold write_section
      rcases hc with hc | hc <;>
        · rw [hc, ho]
          rfl
    have main : ∀ (fuel : Nat) (st : BlogState), st.outline = ["Intro", "Intro", "End"] →
        (st.current_section = none ∨ st.current_section = some "Intro") →
        sectionLoop llmStub fuel st = none := by
      intro fuel
      induction fuel with
      | zero => intro st _ _; rfl
      | succ n ih =>
          intro st ho hc
          obtain ⟨st', hws, ho', hc'⟩ := key st ho hc
          rw [sectionLoop, hws]
          dsimp only
          have hsc : should_continue st' = "continue_writing" := by
            unfold should_continue
            rw [if_neg]
            intro hand
            rw [hc'] at hand
            exact Option.noConfusion hand.1
          rw [hsc]
          rw [if_neg (by decide)]
          rw [ih st' ho' (Or.inr hc')]
    exact fun fuel => main fuel dupOutlineState rfl (Or.inl rfl)

theorem pyIndex_get_of_nodup : ∀ {l : List String}, l.Nodup → ∀ (i : Nat) (h : i < l.length),
    pyIndex (l.get ⟨i, h⟩) l = some i := by
  intro l
  induction l with
  | nil => intro _ i h; exact absurd h (by simp)
  | cons x xs ih =>
      intro hnd i h
      rw [List.nodup_cons] at hnd
      cases i with
      | zero => simp [pyIndex]
      | succ i =>
          have hlt : i < xs.length := by simpa using h
          have hget : (x :: xs).get ⟨i + 1, h⟩ = xs.get ⟨i, hlt⟩ := rfl
          rw [hget]
          unfold pyIndex
          rw [if_neg (fun he => hnd.1 (by rw [he]; exact List.get_mem xs i hlt)), ih hnd.2 i hlt]
          rfl

theorem string_append_ne_empty_right (s t : String) (ht : t ≠ "") : s ++ t ≠ "" := by
  intro h
  apply ht
  have hlen := congrArg String.length h
  rw [String.length_append] at hlen
  have h0 : ("" : String).length = 0 := rfl
  rw [h0] at hlen
  have hl : t.length = 0 := by omega
  exact String.ext (List.length_eq_zero.mp hl)

theorem appendBlock_ne_empty (d b : String) (hb : b ≠ "") : appendBlock d b ≠ "" := by
  unfold appendBlock
  exact string_append_ne_empty_right _ _ hb

theorem sectionBlock_ne_empty (llm : String → String) (topic : String)
    (rs : List SearchResult) (sec : String) : sectionBlock llm topic rs sec ≠ "" := by
  unfold sectionBlock
  intro h
  have hlen := congrArg String.length h
  rw [String.length_append, String.length_append, String.length_append] at hlen
  have h3 : ("## " : String).length = 3 := rfl
  have h0 : ("" : String).length = 0 := rfl
  rw [h3, h0] at hlen
  omega

theorem expectedDraft_take_succ (blocks : List String) (i : Nat) (h : i < blocks.length) :
    expectedDraft (blocks.take (i + 1)) =
      appendBlock (expectedDraft (blocks.take i)) (blocks.get ⟨i, h⟩) := by
  unfold expectedDraft
  rw [List.take_succ, List.getElem?_eq_getElem h]
  rw [Option.toList_some, List.foldl_concat]
  simp [List.get_eq_getElem]

theorem write_section_spec (llm : String → String) (outline : List String)
    (hnn : ∀ s ∈ outline, s ≠ "") (hnd : outline.Nodup)
    (st : BlogState) (i : Nat) (hi : i < outline.length)
    (hout : st.outline = outline)
    (hcur : st.current_section = some (outline.get ⟨i, hi⟩) ∨
      (st.current_section = none ∧ i = 0)) :
    write_section llm st = some { st with
      draft := appendBlock st.draft
        (sectionBlock llm st.topic st.research_data (outline.get ⟨i, hi⟩)),
      current_section :=
        if h : i + 1 < outline.length then some (outline.get ⟨i + 1, h⟩) else none } := by
  unfold write_section
  have hcur' : (if pyFalsyOptStr st.current_section then st.outline.head? else st.current_section)
      = some (outline.get ⟨i, hi⟩) := by
    rcases hcur with hc | ⟨hc, rfl⟩
    · rw [hc]
      rw [if_neg ?hfalsy]
      case hfalsy =>
        unfold pyFalsyOptStr
        simp
        exact hnn _ (List.get_mem outline i hi)
    · rw [hc]
      show st.outline.head? = some (outline.get ⟨0, hi⟩)
      rw [hout, ← List.get?_zero, List.get?_eq_get hi]
  rw [hcur']
  dsimp only
  rw [hout, pyIndex_get_of_nodup hnd i hi]
  dsimp only
  by_cases h2 : i + 1 < outline.length
  · rw [if_pos h2, dif_pos h2, List.get?_eq_get h2]
  · rw [if_neg h2, dif_neg h2]

theorem sectionLoop_run (llm : String → String) (outline : List String)
    (hnn : ∀ s ∈ outline, s ≠ "") (hnd : outline.Nodup) :
    ∀ (r i : Nat) (hi : i < outline.length), i + r = outline.length →
    ∀ st : BlogState, st.outline = outline →
    st.draft = expectedDraft ((outline.take i).map
      (sectionBlock llm st.topic st.research_data)) →
    (st.current_section = some (outline.get ⟨i, hi⟩) ∨
      (st.current_section = none ∧ i = 0)) →
    sectionLoop llm r st =
      some ({ st with
          current_section := none,
          draft := expectedDraft (outline.map
            (sectionBlock llm st.topic st.research_data)) }, r) := by
  intro r
  induction r with
  | zero => intro i hi hsum; exact absurd hsum (by omega)
  | succ n ih =>
      intro i hi hsum st hout hd hcur
      rw [sectionLoop, write_section_spec llm outline hnn hnd st i hi hout hcur]
      dsimp only
      have hdraft1 : appendBlock st.draft
          (sectionBlock llm st.topic st.research_data (outline.get ⟨i, hi⟩)) =
          expectedDraft ((outline.take (i + 1)).map
            (sectionBlock llm st.topic st.research_data)) := by
        rw [hd, List.map_take, List.map_take,
          expectedDraft_take_succ ((outline.map (sectionBlock llm st.topic st.research_data)))
            i (by simpa using hi)]
        congr 1
        rw [List.get_eq_getElem, List.get_eq_getElem, List.getElem_map]
      by_cases h2 : i + 1 < outline.length
      · rw [dif_pos h2]
        have hsc : should_continue { st with
            draft := appendBlock st.draft
              (sectionBlock llm st.topic st.research_data (outline.get ⟨i, hi⟩)),
            current_section := some (outline.get ⟨i + 1, h2⟩) } = "continue_writing" := by
          unfold should_continue
          rw [if_neg]
          intro hand
          exact Option.noConfusion hand.1
        rw [if_neg (by rw [hsc]; decide)]
        rw [ih (i + 1) h2 (by omega)
          { st with
            draft := appendBlock st.draft
              (sectionBlock llm st.topic st.research_data (outline.get ⟨i, hi⟩)),
            current_section := some (outline.get ⟨i + 1, h2⟩) }
          hout hdraft1 (Or.inl rfl)]
      · rw [dif_neg h2]
        have hieq : i + 1 = outline.length := by omega
        have hn0 : n = 0 := by omega
        subst hn0
        have hdraftF : appendBlock st.draft
            (sectionBlock llm st.topic st.research_data (outline.get ⟨i, hi⟩)) =
            expectedDraft (outline.map (sectionBlock llm st.topic st.research_data)) := by
          rw [hdraft1, hieq, List.take_length]
        have hsc : should_continue { st with
            draft := appendBlock st.draft
              (sectionBlock llm st.topic st.research_data (outline.get ⟨i, hi⟩)),
            current_section := none } = "analyze" := by
          unfold should_continue
          rw [if_pos]
          exact ⟨rfl, appendBlock_ne_empty _ _ (sectionBlock_ne_empty llm _ _ _)⟩
        rw [if_pos hsc, hdraftF]

/-- C5 (amended): for every finite non-empty outline whose entries are
non-empty (as the outline stage guarantees) and pairwise distinct (which the
outline stage does not guarantee — see the duplicate-outline counterexample),
the section loop terminates after exactly one write_section iteration per
outline entry, and the final draft is the fold, in outline order, of one
heading-plus-body block per entry. -/
theorem blog_section_loop_runs_outline (llm : String → String) (topic : String)
    (research : List SearchResult) (outline : List String)
    (hne : outline ≠ []) (hnn : ∀ s ∈ outline, s ≠ "") (hnd : outline.Nodup) :
    sectionLoop llm outline.length
      { topic := topic, research_data := research, outline := outline } =
      some ({ topic := topic, research_data := research, outline := outline,
              current_section := none,
              draft := expectedDraft (outline.map (sectionBlock llm topic research)),
              status := "initialized" }, outline.length) := by
  have hlen : 0 < outline.length := List.length_pos.mpr hne
  exact sectionLoop_run llm outline hnn hnd outline.length 0 hlen (by omega)
    { topic := topic, research_data := research, outline := outline }
    rfl rfl (Or.inr ⟨rfl, rfl⟩)

/-- Witness for C5 (amended): a 3-entry duplicate-free outline runs the loop
exactly 3 times and produces the three section blocks in order. -/
theorem blog_section_loop_runs_outline_witness :
    sectionLoop (fun _ => "w") 3
      { topic := "T", research_data := [], outline := ["A", "B", "C"] } =
      some ({ topic := "T", research_data := [], outline := ["A", "B", "C"],
              current_section := none,
              draft := expectedDraft ((["A", "B", "C"]).map
                (sectionBlock (fun _ => "w") "T" [])),
              status := "initialized" }, 3) := by
  exact blog_section_loop_runs_outline (fun _ => "w") "T" [] ["A", "B", "C"]
    (by decide) (by decide) (by decide)
